import Mathlib

/-!
Shallow embedding of `src/scrap.PY` (class `AdvancedWebScraper`): the
retry-controlled fetcher `fetch_url`, the per-page extractor/sink
`extract_data` with its database insert `insert_data`, and the batch
orchestrator `scrape_multiple_urls`.  Third-party collaborators
(aiohttp responses, the BeautifulSoup parse tree, `urllib.parse.urljoin`,
psycopg2) are modelled as explicit parameters or small faithful models,
each documented at its definition.
-/

/-- Outcome of one `session.get` attempt inside `fetch_url`
(src/scrap.PY lines 60-66): status 200 with a body, a non-200 status
(the `else` branch), or a raised exception (timeout / transport error,
the `except` branch). -/
inductive AttemptOutcome where
  | ok (body : String)
  | status (code : Nat)
  | exc
deriving DecidableEq, Repr

/-- `true` exactly on the non-200-status branch of the loop. -/
def AttemptOutcome.isStatus : AttemptOutcome → Bool
  | .status _ => true
  | _ => false

/-- `true` exactly on the HTTP-200 branch of the loop. -/
def AttemptOutcome.isOk : AttemptOutcome → Bool
  | .ok _ => true
  | _ => false

/-- Observable trace of one `fetch_url` call: the returned value
(`some body` on success, `none` on exhaustion), the number of
`session.get` attempts actually made, and the list of
`asyncio.sleep` durations in order. -/
structure FetchTrace where
  result : Option String
  attempts : Nat
  sleeps : List Nat
deriving DecidableEq, Repr

/-- The body of `for retry in range(max_retries)` in `fetch_url`
(src/scrap.PY lines 57-70), iterating over the remaining retry
indices.  On status 200 the body text is returned at once; on a
non-200 status the task sleeps `2 ** retry` and continues; on an
exception there is no sleep, and if `retry == max_retries - 1` the
function returns `None`; falling off the loop returns `None`. -/
def fetch_url_go (outcomes : Nat → AttemptOutcome) (max_retries : Nat) :
    List Nat → List Nat → Nat → FetchTrace
  | [], sleeps, att => ⟨none, att, sleeps⟩
  | r :: rest, sleeps, att =>
      match outcomes r with
      | .ok body => ⟨some body, att + 1, sleeps⟩
      | .status _ => fetch_url_go outcomes max_retries rest (sleeps ++ [2 ^ r]) (att + 1)
      | .exc =>
          if r = max_retries - 1 then ⟨none, att + 1, sleeps⟩
          else fetch_url_go outcomes max_retries rest sleeps (att + 1)

/-- `AdvancedWebScraper.fetch_url` (src/scrap.PY lines 54-70):
`max_retries = 3`, then the retry loop.  The network is abstracted as
`outcomes`, giving the result of the attempt with each retry index. -/
def fetch_url (outcomes : Nat → AttemptOutcome) : FetchTrace :=
  fetch_url_go outcomes 3 (List.range 3) [] 0

/-- One element of the BeautifulSoup parse tree, as `extract_data`
consumes it: a tag name, an attribute mapping (`img.get("src")`,
`link.get("href")`), and the element text (`.text`). -/
structure Node where
  tag : String
  attrs : List (String × String)
  text : String
deriving DecidableEq, Repr

/-- `element.get(key)`: look the key up in the attribute mapping. -/
def Node.attr (n : Node) (k : String) : Option String :=
  (n.attrs.find? (fun p => p.1 = k)).map Prod.snd

/-- Python truthiness of `element.get(key)` as used in the
comprehension filters `if img.get("src")` / `if link.get("href")`:
`None` and the empty string are falsy. -/
def truthyAttr : Option String → Bool
  | some s => !s.isEmpty
  | none => false

/-- Python truthiness of the fetched body in `if html_content:`
(src/scrap.PY line 75): `None` and `""` are falsy. -/
def truthyStr : Option String → Bool
  | some s => !s.isEmpty
  | none => false

/-- Python `str.strip()`: drop whitespace from both ends. -/
def pyStrip (s : String) : String :=
  String.mk
    (((s.toList.dropWhile Char.isWhitespace).reverse.dropWhile
      Char.isWhitespace).reverse)

/-- Split a character list at its first `"://"`, giving the scheme
characters and the rest, or `none` when no `"://"` occurs. -/
def splitSchemeAux : List Char → List Char → Option (List Char × List Char)
  | acc, ':' :: '/' :: '/' :: rest => some (acc.reverse, rest)
  | acc, c :: rest => splitSchemeAux (c :: acc) rest
  | _, [] => none

/-- Everything up to and including the last `/` (the base with its
last path segment removed). -/
def dropLastSegmentChars (cs : List Char) : List Char :=
  (cs.reverse.dropWhile (fun c => c ≠ '/')).reverse

/-- Modelled from `urllib.parse.urljoin`, restricted to the reference
forms relevant here: an already-absolute reference (one carrying a
scheme) is returned unchanged, a root-relative reference (leading `/`)
is resolved against the base's scheme and host, any other non-empty
reference replaces the base's last path segment, and an empty
reference yields the base.  `urljoin` itself is Python standard
library, not repository code. -/
def urljoinChars (base url : List Char) : List Char :=
  if url.isEmpty then base
  else
    match splitSchemeAux [] url with
    | some _ => url
    | none =>
        match splitSchemeAux [] base with
        | none => url
        | some (scheme, rest) =>
            match url with
            | '/' :: _ =>
                scheme ++ [':', '/', '/'] ++
                  rest.takeWhile (fun c => c ≠ '/') ++ url
            | _ => dropLastSegmentChars base ++ url

/-- `urljoin` on strings, through the character-list model. -/
def urljoin (base url : String) : String :=
  String.mk (urljoinChars base.toList url.toList)

/-- The heading comprehension (src/scrap.PY line 79):
`[h.text.strip() for h in soup.find_all(['h1'..'h6'])]`. -/
def headingsOf (nodes : List Node) : List String :=
  (nodes.filter (fun n => ["h1", "h2", "h3", "h4", "h5", "h6"].contains n.tag)).map
    (fun n => pyStrip n.text)

/-- The paragraph comprehension (src/scrap.PY line 85):
`[p.text.strip() for p in soup.find_all("p")]`. -/
def paragraphsOf (nodes : List Node) : List String :=
  (nodes.filter (fun n => n.tag = "p")).map (fun n => pyStrip n.text)

/-- The image comprehension (src/scrap.PY line 91):
`[urljoin(url, img.get("src")) for img in soup.find_all("img") if img.get("src")]`. -/
def imagesOf (url : String) (nodes : List Node) : List String :=
  ((nodes.filter (fun n => n.tag = "img")).filter
      (fun n => truthyAttr (n.attr "src"))).map
    (fun n => urljoin url ((n.attr "src").getD ""))

/-- The link comprehension (src/scrap.PY line 97):
`[urljoin(url, link.get("href")) for link in soup.find_all("a") if link.get("href")]`. -/
def linksOf (url : String) (nodes : List Node) : List String :=
  ((nodes.filter (fun n => n.tag = "a")).filter
      (fun n => truthyAttr (n.attr "href"))).map
    (fun n => urljoin url ((n.attr "href").getD ""))

/-- One row of the `scraped_data` table (src/scrap.PY lines 38-44). -/
structure Row where
  url : String
  category : String
  content : String
deriving DecidableEq, Repr

/-- The in-memory aggregate `self.results` (src/scrap.PY lines 15-20):
one growing sequence per category key. -/
structure Results where
  Headings : List String
  Text : List String
  Images : List String
  Links : List String
deriving DecidableEq, Repr

/-- The empty aggregate built in `__init__`. -/
def Results.empty : Results := ⟨[], [], [], []⟩

/-- Scraper state shared across pages: the committed rows of the
`scraped_data` table, the aggregate `self.results`, and a running
index of `insert_data` calls (used to drive the injected-failure
parameter `fails`). -/
structure ScrState where
  counter : Nat
  storage : List Row
  results : Results
deriving DecidableEq, Repr

/-- `AdvancedWebScraper.insert_data` (src/scrap.PY lines 47-52):
execute the INSERT and commit.  A psycopg2 failure of the call
numbered `cnt` (injected through `fails`) raises before any row is
committed, modelled as `none`; success appends one committed row. -/
def insert_data (fails : Nat → Bool) (cnt : Nat) (url category content : String)
    (storage : List Row) : Option (List Row) :=
  if fails cnt then none else some (storage ++ [⟨url, category, content⟩])

/-- Result of recording one category's items: the new insert counter,
table rows and aggregate sequence, and whether an insert raised
(propagating out of `extract_data`). -/
structure RecOut where
  counter : Nat
  storage : List Row
  agg : List String
  errored : Bool
deriving DecidableEq, Repr

/-- One of the four recording loops of `extract_data`
(src/scrap.PY lines 80-82, 86-88, 92-94, 98-100): for each item,
`insert_data` then append to the aggregate sequence; an insert
failure raises immediately, leaving that item out of both. -/
def recordCat (fails : Nat → Bool) (url cat : String) :
    List String → Nat → List Row → List String → RecOut
  | [], cnt, storage, agg => ⟨cnt, storage, agg, false⟩
  | item :: rest, cnt, storage, agg =>
      match insert_data fails cnt url cat item storage with
      | none => ⟨cnt + 1, storage, agg, true⟩
      | some storage1 => recordCat fails url cat rest (cnt + 1) storage1 (agg ++ [item])

/-- `AdvancedWebScraper.extract_data` (src/scrap.PY lines 72-104)
after the fetch: if the fetched body is truthy, parse it (the
BeautifulSoup parse is abstracted as `parse`) and record headings,
paragraphs, image URLs and link URLs in that order, each under its
category label; a storage failure propagates at once, abandoning the
remaining items and categories.  A falsy body only logs and changes
nothing.  The `Bool` is `true` when a storage error propagated. -/
def extract_data (fails : Nat → Bool) (parse : String → List Node) (url : String)
    (html_content : Option String) (st : ScrState) : ScrState × Bool :=
  if truthyStr html_content then
    let nodes := parse (html_content.getD "")
    let r1 := recordCat fails url "Heading" (headingsOf nodes)
      st.counter st.storage st.results.Headings
    let st1 : ScrState := ⟨r1.counter, r1.storage, { st.results with Headings := r1.agg }⟩
    if r1.errored then (st1, true)
    else
      let r2 := recordCat fails url "Text" (paragraphsOf nodes)
        st1.counter st1.storage st1.results.Text
      let st2 : ScrState := ⟨r2.counter, r2.storage, { st1.results with Text := r2.agg }⟩
      if r2.errored then (st2, true)
      else
        let r3 := recordCat fails url "Image" (imagesOf url nodes)
          st2.counter st2.storage st2.results.Images
        let st3 : ScrState := ⟨r3.counter, r3.storage, { st2.results with Images := r3.agg }⟩
        if r3.errored then (st3, true)
        else
          let r4 := recordCat fails url "Link" (linksOf url nodes)
            st3.counter st3.storage st3.results.Links
          let st4 : ScrState := ⟨r4.counter, r4.storage, { st3.results with Links := r4.agg }⟩
          (st4, r4.errored)
  else (st, false)

/-- `AdvancedWebScraper.scrape_multiple_urls` (src/scrap.PY lines
132-137): one `extract_data` task per URL, all awaited.  Each page is
given with its final `fetch_url` value (`some body` or `none` after
exhaustion).  The effects are composed in task order; the `Bool`
records whether any task raised a storage error. -/
def scrape_multiple_urls (fails : Nat → Bool) (parse : String → List Node)
    (pages : List (String × Option String)) (st : ScrState) : ScrState × Bool :=
  match pages with
  | [] => (st, false)
  | (url, body) :: rest =>
      let r := extract_data fails parse url body st
      let r2 := scrape_multiple_urls fails parse rest r.1
      (r2.1, r.2 || r2.2)

/-- The URL-collection loop of `main` (src/scrap.PY lines 155-164),
with the interactive `input()` stream given as a list of lines: a
non-empty line is appended; an empty line ends collection when at
least one URL was entered, and otherwise prints a prompt and loops.
`none` means the input stream ran out with the loop still waiting. -/
def collectUrls : List String → List String → Option (List String)
  | [], _ => none
  | line :: rest, acc =>
      if line.isEmpty then
        if acc.isEmpty then collectUrls rest acc else some acc
      else collectUrls rest (acc ++ [line])

/-- The heading items one page contributes to the aggregate: empty
when the fetched body is falsy, else the heading comprehension over
its parse tree. -/
def pageHeadings (parse : String → List Node) (p : String × Option String) : List String :=
  if truthyStr p.2 then headingsOf (parse (p.2.getD "")) else []

/-- The paragraph items one page contributes to the aggregate. -/
def pageParagraphs (parse : String → List Node) (p : String × Option String) : List String :=
  if truthyStr p.2 then paragraphsOf (parse (p.2.getD "")) else []

/-- The image URLs one page contributes to the aggregate. -/
def pageImages (parse : String → List Node) (p : String × Option String) : List String :=
  if truthyStr p.2 then imagesOf p.1 (parse (p.2.getD "")) else []

/-- The link URLs one page contributes to the aggregate. -/
def pageLinks (parse : String → List Node) (p : String × Option String) : List String :=
  if truthyStr p.2 then linksOf p.1 (parse (p.2.getD "")) else []

/-- The table rows one page contributes, in recording order. -/
def pageRows (parse : String → List Node) (p : String × Option String) : List Row :=
  (pageHeadings parse p).map (fun x => ⟨p.1, "Heading", x⟩) ++
  (pageParagraphs parse p).map (fun x => ⟨p.1, "Text", x⟩) ++
  (pageImages parse p).map (fun x => ⟨p.1, "Image", x⟩) ++
  (pageLinks parse p).map (fun x => ⟨p.1, "Link", x⟩)

/-- One append to `self.results` as issued by a page task: the
aggregate key (`"Headings"`, `"Text"`, `"Images"`, `"Links"`) and the
content string appended under it. -/
abbrev Op := String × String

/-- Apply one append operation to the aggregate.  Appending to a
Python list is a single uninterruptible step of the event loop, so
one operation is atomic. -/
def applyOp (r : Results) (op : Op) : Results :=
  if op.1 = "Headings" then { r with Headings := r.Headings ++ [op.2] }
  else if op.1 = "Text" then { r with Text := r.Text ++ [op.2] }
  else if op.1 = "Images" then { r with Images := r.Images ++ [op.2] }
  else if op.1 = "Links" then { r with Links := r.Links ++ [op.2] }
  else r

/-- The sequence of aggregate appends one page task issues, in the
order `extract_data` performs them. -/
def pageOps (parse : String → List Node) (p : String × Option String) : List Op :=
  (pageHeadings parse p).map (fun s => ("Headings", s)) ++
  (pageParagraphs parse p).map (fun s => ("Text", s)) ++
  (pageImages parse p).map (fun s => ("Images", s)) ++
  (pageLinks parse p).map (fun s => ("Links", s))

/-- Cooperative interleaving of the page tasks' pending append
operations: at each step the event loop runs task `i`, which performs
its next append (atomically); scheduling an index with no pending
operation, or out of range, changes nothing.  Returns the remaining
queues and the final aggregate. -/
def runSched : List Nat → List (List Op) → Results → List (List Op) × Results
  | [], queues, r => (queues, r)
  | i :: rest, queues, r =>
      match queues[i]? with
      | some (op :: ops) => runSched rest (queues.set i ops) (applyOp r op)
      | _ => runSched rest queues r

/-- Length of the aggregate sequence stored under key `k`. -/
def keyLen (r : Results) (k : String) : Nat :=
  if k = "Headings" then r.Headings.length
  else if k = "Text" then r.Text.length
  else if k = "Images" then r.Images.length
  else if k = "Links" then r.Links.length
  else 0

/-- Number of pending append operations for key `k` in one queue. -/
def countKey (k : String) (ops : List Op) : Nat :=
  (ops.filter (fun op => op.1 = k)).length

/-- Total pending append operations for key `k` across all queues. -/
def qCount (k : String) (queues : List (List Op)) : Nat :=
  (queues.map (countKey k)).sum

/-- The `html.parser` parse tree of the markup
`<h1>A</h1><p>B</p><img src="/x.png"><a href="/y">Y</a>`
from the round-trip property: four sibling elements. -/
def c6nodes : List Node :=
  [⟨"h1", [], "A"⟩, ⟨"p", [], "B"⟩,
   ⟨"img", [("src", "/x.png")], ""⟩, ⟨"a", [("href", "/y")], "Y"⟩]

lemma recordCat_noFail (url cat : String) :
    ∀ (items : List String) (cnt : Nat) (storage : List Row) (agg : List String),
    recordCat (fun _ => false) url cat items cnt storage agg =
      ⟨cnt + items.length, storage ++ items.map (fun x => ⟨url, cat, x⟩),
        agg ++ items, false⟩ := by
  intro items
  induction items with
  | nil => intro cnt storage agg; simp [recordCat]
  | cons x xs ih =>
      intro cnt storage agg
      simp [recordCat, insert_data, ih, List.append_assoc]
      omega

lemma recordCat_sync (fails : Nat → Bool) (url cat : String) :
    ∀ (items : List String) (cnt : Nat) (storage : List Row) (agg : List String),
    ∃ δ : List String,
      (recordCat fails url cat items cnt storage agg).agg = agg ++ δ ∧
      (recordCat fails url cat items cnt storage agg).storage =
        storage ++ δ.map (fun x => (⟨url, cat, x⟩ : Row)) ∧
      ((recordCat fails url cat items cnt storage agg).errored = false → δ = items) := by
  intro items
  induction items with
  | nil => intro cnt storage agg; exact ⟨[], by simp [recordCat]⟩
  | cons x xs ih =>
      intro cnt storage agg
      by_cases hf : fails cnt
      · refine ⟨[], ?_⟩
        simp [recordCat, insert_data, hf]
      · obtain ⟨δ, h1, h2, h3⟩ := ih (cnt + 1) (storage ++ [⟨url, cat, x⟩]) (agg ++ [x])
        refine ⟨x :: δ, ?_, ?_, ?_⟩
        · simp [recordCat, insert_data, hf, h1]
        · simp [recordCat, insert_data, hf, h2]
        · intro he
          have : (recordCat fails url cat xs (cnt + 1)
              (storage ++ [⟨url, cat, x⟩]) (agg ++ [x])).errored = false := by
            simpa [recordCat, insert_data, hf] using he
          simp [h3 this]

lemma extract_data_noFail (parse : String → List Node) (url : String)
    (body : Option String) (st : ScrState) :
    extract_data (fun _ => false) parse url body st =
      (⟨st.counter + (pageHeadings parse (url, body)).length +
          (pageParagraphs parse (url, body)).length +
          (pageImages parse (url, body)).length +
          (pageLinks parse (url, body)).length,
        st.storage ++ pageRows parse (url, body),
        ⟨st.results.Headings ++ pageHeadings parse (url, body),
         st.results.Text ++ pageParagraphs parse (url, body),
         st.results.Images ++ pageImages parse (url, body),
         st.results.Links ++ pageLinks parse (url, body)⟩⟩, false) := by
  by_cases h : truthyStr body
  · simp [extract_data, h, recordCat_noFail, pageHeadings, pageParagraphs,
      pageImages, pageLinks, pageRows, List.append_assoc]
  · simp [extract_data, h, pageHeadings, pageParagraphs, pageImages,
      pageLinks, pageRows]

lemma scrape_noFail (parse : String → List Node) :
    ∀ (pages : List (String × Option String)) (st : ScrState),
    (scrape_multiple_urls (fun _ => false) parse pages st).2 = false ∧
    (scrape_multiple_urls (fun _ => false) parse pages st).1.storage =
      st.storage ++ (pages.map (pageRows parse)).flatten ∧
    (scrape_multiple_urls (fun _ => false) parse pages st).1.results =
      ⟨st.results.Headings ++ (pages.map (pageHeadings parse)).flatten,
       st.results.Text ++ (pages.map (pageParagraphs parse)).flatten,
       st.results.Images ++ (pages.map (pageImages parse)).flatten,
       st.results.Links ++ (pages.map (pageLinks parse)).flatten⟩ := by
  intro pages
  induction pages with
  | nil => intro st; simp [scrape_multiple_urls]
  | cons p rest ih =>
      intro st
      obtain ⟨url, body⟩ := p
      obtain ⟨ih1, ih2, ih3⟩ := ih
        ⟨st.counter + (pageHeadings parse (url, body)).length +
            (pageParagraphs parse (url, body)).length +
            (pageImages parse (url, body)).length +
            (pageLinks parse (url, body)).length,
          st.storage ++ pageRows parse (url, body),
          ⟨st.results.Headings ++ pageHeadings parse (url, body),
           st.results.Text ++ pageParagraphs parse (url, body),
           st.results.Images ++ pageImages parse (url, body),
           st.results.Links ++ pageLinks parse (url, body)⟩⟩
      refine ⟨?_, ?_, ?_⟩
      · simp [scrape_multiple_urls, extract_data_noFail, ih1]
      · simp [scrape_multiple_urls, extract_data_noFail, ih2, List.append_assoc]
      · simp [scrape_multiple_urls, extract_data_noFail, ih3, List.append_assoc]

lemma scrape_skip_none (fails : Nat → Bool) (parse : String → List Node) :
    ∀ (pages : List (String × Option String)) (st : ScrState),
    scrape_multiple_urls fails parse pages st =
      scrape_multiple_urls fails parse (pages.filter (fun p => p.2.isSome)) st := by
  intro pages
  induction pages with
  | nil => intro st; rfl
  | cons p rest ih =>
      intro st
      obtain ⟨url, body⟩ := p
      cases body with
      | none => simp [scrape_multiple_urls, extract_data, truthyStr, ih]
      | some b => simp [scrape_multiple_urls, ih]

lemma collectUrls_some_ne_nil :
    ∀ (lines acc urls : List String), collectUrls lines acc = some urls →
      urls ≠ [] := by
  intro lines
  induction lines with
  | nil => intro acc urls h; simp [collectUrls] at h
  | cons line rest ih =>
      intro acc urls h
      by_cases hl : line.isEmpty
      · by_cases ha : acc.isEmpty
        · simp [collectUrls, hl, ha] at h
          exact ih acc urls h
        · simp [collectUrls, hl, ha] at h
          rw [← h]
          simpa [List.isEmpty_iff] using ha
      · simp [collectUrls, hl] at h
        exact ih (acc ++ [line]) urls h

lemma applyOp_keyLen (r : Results) (op : Op) (k : String)
    (hk : k ∈ (["Headings", "Text", "Images", "Links"] : List String)) :
    keyLen (applyOp r op) k = keyLen r k + (if op.1 = k then 1 else 0) := by
  simp only [List.mem_cons, List.not_mem_nil, or_false] at hk
  rcases hk with h | h | h | h <;> subst h <;>
    simp only [applyOp, keyLen] <;> split_ifs <;> simp_all

lemma countKey_cons (k : String) (op : Op) (ops : List Op) :
    countKey k (op :: ops) = (if op.1 = k then 1 else 0) + countKey k ops := by
  by_cases h : op.1 = k
  · simp [countKey, List.filter, h]
    omega
  · simp [countKey, List.filter, h]

lemma qCount_set (k : String) :
    ∀ (queues : List (List Op)) (i : Nat) (op : Op) (ops : List Op),
    queues[i]? = some (op :: ops) →
    qCount k queues = qCount k (queues.set i ops) + (if op.1 = k then 1 else 0) := by
  intro queues
  induction queues with
  | nil => intro i op ops h; simp at h
  | cons q qs ih =>
      intro i op ops h
      cases i with
      | zero =>
          simp at h
          subst h
          simp [qCount, countKey_cons]
          omega
      | succ j =>
          simp at h
          have := ih j op ops h
          simp [qCount] at this ⊢
          omega

lemma runSched_count (k : String)
    (hk : k ∈ (["Headings", "Text", "Images", "Links"] : List String)) :
    ∀ (sched : List Nat) (queues : List (List Op)) (r : Results),
    keyLen (runSched sched queues r).2 k + qCount k (runSched sched queues r).1 =
      keyLen r k + qCount k queues := by
  intro sched
  induction sched with
  | nil => intro queues r; simp [runSched]
  | cons i rest ih =>
      intro queues r
      cases hq : queues[i]? with
      | none => simp [runSched, hq, ih]
      | some q =>
          cases q with
          | nil => simp [runSched, hq, ih]
          | cons op ops =>
              have hstep : runSched (i :: rest) queues r =
                  runSched rest (queues.set i ops) (applyOp r op) := by
                simp [runSched, hq]
              rw [hstep, ih, applyOp_keyLen r op k hk, qCount_set k queues i op ops hq]
              omega

/-- C1: the claim asserts a `2^attempt` backoff sleep after an
exception failure with attempts remaining, as after a non-2xx status
failure.  The code sleeps only in the non-200-status branch; on the
input where every attempt raises an exception, three attempts are
made and no sleep at all occurs, while the claim predicts sleeps of
`2^0` and `2^1` before attempts 1 and 2. -/
theorem C1_counterexample :
    (fetch_url (fun _ => .exc)).attempts = 3 ∧
    (fetch_url (fun _ => .exc)).sleeps = [] ∧
    (fetch_url (fun _ => .exc)).sleeps ≠ [2 ^ 0, 2 ^ 1] := by
  refine ⟨rfl, rfl, by decide⟩

/-- C1 (amended): for every attempt sequence, the sleeps performed by
`fetch_url` are exactly `2^r` for the attempted retry indices `r`
whose attempt failed with a non-2xx status, in order; an exception
failure contributes no sleep. -/
theorem C1_amended_backoff_only_on_status (outcomes : Nat → AttemptOutcome) :
    (fetch_url outcomes).sleeps =
      ((List.range (fetch_url outcomes).attempts).filter
        (fun r => (outcomes r).isStatus)).map (fun r => 2 ^ r) := by
  have hr : List.range 3 = [0, 1, 2] := rfl
  cases h0 : outcomes 0 <;> cases h1 : outcomes 1 <;> cases h2 : outcomes 2 <;>
    simp [fetch_url, fetch_url_go, hr, h0, h1, h2, AttemptOutcome.isStatus,
      List.range_succ]

/-- C2: the claim asserts that a delay occurs only while further
attempts remain.  On the input where every attempt fails with a
non-2xx status, the code makes three attempts and sleeps `1, 2, 4`:
the final sleep of `2^2` happens after the third (last) attempt,
when no attempt follows, while the claim predicts sleeps `[1, 2]`. -/
theorem C2_counterexample :
    (fetch_url (fun _ => .status 500)).attempts = 3 ∧
    (fetch_url (fun _ => .status 500)).result = none ∧
    (fetch_url (fun _ => .status 500)).sleeps = [1, 2, 4] ∧
    (fetch_url (fun _ => .status 500)).sleeps ≠ [1, 2] := by
  refine ⟨rfl, rfl, rfl, by decide⟩

/-- C2 (amended): when every attempt fails, `fetch_url` makes exactly
`max_retries = 3` attempts and returns an absent result; the delay
before attempt `k` (k ≥ 1) is `2^(k-1)` exactly when attempt `k-1`
failed with a non-2xx status and absent when it failed with an
exception, and when the final attempt fails with a non-2xx status one
further sleep of `2^2` occurs after it: the sleeps are exactly `2^r`
for the status-failed retry indices `r`, in order. -/
theorem C2_amended_exhaustion_trace (outcomes : Nat → AttemptOutcome)
    (h : ∀ r, r < 3 → (outcomes r).isOk = false) :
    (fetch_url outcomes).result = none ∧
    (fetch_url outcomes).attempts = 3 ∧
    (fetch_url outcomes).sleeps =
      ((List.range 3).filter (fun r => (outcomes r).isStatus)).map
        (fun r => 2 ^ r) := by
  have h0 := h 0 (by omega)
  have h1 := h 1 (by omega)
  have h2 := h 2 (by omega)
  have hr : List.range 3 = [0, 1, 2] := rfl
  cases e0 : outcomes 0 <;> rw [e0] at h0 <;>
    cases e1 : outcomes 1 <;> rw [e1] at h1 <;>
      cases e2 : outcomes 2 <;> rw [e2] at h2 <;>
        simp_all [fetch_url, fetch_url_go, hr, AttemptOutcome.isOk,
          AttemptOutcome.isStatus]

/-- Witness for the amended C2 at the all-status-failure input: three
attempts, absent result, sleeps `[1, 2, 4]`. -/
theorem C2_amended_witness :
    (fetch_url (fun _ => .status 503)).result = none ∧
    (fetch_url (fun _ => .status 503)).attempts = 3 ∧
    (fetch_url (fun _ => .status 503)).sleeps =
      ((List.range 3).filter
        (fun r => ((fun _ => AttemptOutcome.status 503) r).isStatus)).map
        (fun r => 2 ^ r) :=
  C2_amended_exhaustion_trace (fun _ => .status 503) (fun _ _ => rfl)

/-- C3: for every `extract_data` call, the items appended to each
aggregate sequence coincide exactly with the rows committed to
storage in that call: an item whose `insert_data` raised (the error
propagating as the returned flag) is appended to neither, so the
aggregate never contains a content string whose insert did not
succeed; and when no insert fails on a truthy body, the appended
items are the full extracted lists. -/
theorem C3_storage_aggregate_sync (fails : Nat → Bool) (parse : String → List Node)
    (url : String) (html_content : Option String) (st : ScrState) :
    ∃ δH δT δI δL : List String,
      (extract_data fails parse url html_content st).1.results =
        ⟨st.results.Headings ++ δH, st.results.Text ++ δT,
         st.results.Images ++ δI, st.results.Links ++ δL⟩ ∧
      (extract_data fails parse url html_content st).1.storage =
        st.storage ++ δH.map (fun x => ⟨url, "Heading", x⟩) ++
          δT.map (fun x => ⟨url, "Text", x⟩) ++
          δI.map (fun x => ⟨url, "Image", x⟩) ++
          δL.map (fun x => ⟨url, "Link", x⟩) ∧
      ((extract_data fails parse url html_content st).2 = false →
        truthyStr html_content = true →
          δH = headingsOf (parse (html_content.getD "")) ∧
          δT = paragraphsOf (parse (html_content.getD "")) ∧
          δI = imagesOf url (parse (html_content.getD "")) ∧
          δL = linksOf url (parse (html_content.getD ""))) := by
  by_cases h : truthyStr html_content
  case neg =>
    refine ⟨[], [], [], [], ?_, ?_, ?_⟩ <;> simp [extract_data, h]
  case pos =>
    obtain ⟨δ1, a1, s1, f1⟩ := recordCat_sync fails url "Heading"
      (headingsOf (parse (html_content.getD ""))) st.counter st.storage
      st.results.Headings
    simp only [extract_data, h, eq_self_iff_true, if_true]
    generalize hr1 : recordCat fails url "Heading"
      (headingsOf (parse (html_content.getD ""))) st.counter st.storage
      st.results.Headings = r1
    rw [hr1] at a1 s1 f1
    by_cases e1 : r1.errored
    · rw [if_pos e1]
      refine ⟨δ1, [], [], [], ?_, ?_, ?_⟩
      · rw [a1]; simp
      · rw [s1]; simp
      · simp
    · rw [if_neg e1]
      simp only [Bool.not_eq_true] at e1
      obtain ⟨δ2, a2, s2, f2⟩ := recordCat_sync fails url "Text"
        (paragraphsOf (parse (html_content.getD ""))) r1.counter r1.storage
        st.results.Text
      generalize hr2 : recordCat fails url "Text"
        (paragraphsOf (parse (html_content.getD ""))) r1.counter r1.storage
        st.results.Text = r2
      rw [hr2] at a2 s2 f2
      by_cases e2 : r2.errored
      · rw [if_pos e2]
        refine ⟨δ1, δ2, [], [], ?_, ?_, ?_⟩
        · rw [a2, a1]; simp
        · rw [s2, s1]; simp
        · simp
      · rw [if_neg e2]
        simp only [Bool.not_eq_true] at e2
        obtain ⟨δ3, a3, s3, f3⟩ := recordCat_sync fails url "Image"
          (imagesOf url (parse (html_content.getD ""))) r2.counter r2.storage
          st.results.Images
        generalize hr3 : recordCat fails url "Image"
          (imagesOf url (parse (html_content.getD ""))) r2.counter r2.storage
          st.results.Images = r3
        rw [hr3] at a3 s3 f3
        by_cases e3 : r3.errored
        · rw [if_pos e3]
          refine ⟨δ1, δ2, δ3, [], ?_, ?_, ?_⟩
          · rw [a3, a2, a1]; simp
          · rw [s3, s2, s1]; simp
          · simp
        · rw [if_neg e3]
          simp only [Bool.not_eq_true] at e3
          obtain ⟨δ4, a4, s4, f4⟩ := recordCat_sync fails url "Link"
            (linksOf url (parse (html_content.getD ""))) r3.counter r3.storage
            st.results.Links
          generalize hr4 : recordCat fails url "Link"
            (linksOf url (parse (html_content.getD ""))) r3.counter r3.storage
            st.results.Links = r4
          rw [hr4] at a4 s4 f4
          refine ⟨δ1, δ2, δ3, δ4, ?_, ?_, ?_⟩
          · rw [a4, a3, a2, a1]
          · rw [s4, s3, s2, s1]
          · intro hf _
            exact ⟨f1 e1, f2 e2, f3 e3, f4 hf⟩

/-- C4: a URL whose fetch returns absent changes nothing: no row is
written, no aggregate item is appended, no error is raised; and the
whole batch result is unchanged when the pages whose fetch returned
absent are removed, so every recorded item stems from a page whose
own fetch succeeded. -/
theorem C4_no_items_from_failed_fetch (fails : Nat → Bool)
    (parse : String → List Node) (url : String) (st : ScrState)
    (pages : List (String × Option String)) :
    extract_data fails parse url none st = (st, false) ∧
    scrape_multiple_urls fails parse pages st =
      scrape_multiple_urls fails parse (pages.filter (fun p => p.2.isSome)) st := by
  exact ⟨by simp [extract_data, truthyStr], scrape_skip_none fails parse pages st⟩

/-- C5: the claim says an empty URL collection is reported to the
caller as a usage error before any network activity.  Invoking
`scrape_multiple_urls` with the empty collection instead completes
as a silent no-op: the state is unchanged and no error is raised. -/
theorem C5_counterexample :
    scrape_multiple_urls (fun _ => false) (fun _ => []) []
      ⟨0, [], Results.empty⟩ = (⟨0, [], Results.empty⟩, false) := rfl

/-- C5 (amended): `scrape_multiple_urls` on an empty collection is a
silent no-op (unchanged state, no error); non-emptiness is enforced
only by the interactive collection loop of `main`, which re-prompts
until at least one URL was entered, so a collection it hands over is
never empty. -/
theorem C5_amended_empty_input (fails : Nat → Bool) (parse : String → List Node)
    (st : ScrState) (lines urls : List String)
    (h : collectUrls lines [] = some urls) :
    scrape_multiple_urls fails parse [] st = (st, false) ∧ urls ≠ [] :=
  ⟨rfl, collectUrls_some_ne_nil lines [] urls h⟩

/-- Witness for the amended C5: the input stream enters one URL and
then a blank line; the collected list is that URL, which is not
empty. -/
theorem C5_amended_witness :
    scrape_multiple_urls (fun _ => false) (fun _ => []) []
        ⟨0, [], Results.empty⟩ = (⟨0, [], Results.empty⟩, false) ∧
      (["http://a"] : List String) ≠ [] :=
  C5_amended_empty_input (fun _ => false) (fun _ => [])
    ⟨0, [], Results.empty⟩ ["http://a", ""] ["http://a"] (by decide)

/-- C6: on the parse tree of
`<h1>A</h1><p>B</p><img src="/x.png"><a href="/y">Y</a>` with base
URL `http://s/`, the four comprehensions yield `["A"]`, `["B"]`,
`["http://s/x.png"]` and `["http://s/y"]`, in document order, with
text trimmed and the relative references resolved against the base. -/
theorem C6_round_trip :
    headingsOf c6nodes = ["A"] ∧
    paragraphsOf c6nodes = ["B"] ∧
    imagesOf "http://s/" c6nodes = ["http://s/x.png"] ∧
    linksOf "http://s/" c6nodes = ["http://s/y"] := by decide

/-- C7: an `<img>` element without a `src` attribute and an `<a>`
element without an `href` attribute contribute no item to the image
and link comprehensions, wherever they appear in the document; the
comprehension over the remaining nodes is unchanged (and extraction
is total, so their presence raises no error). -/
theorem C7_missing_attribute_skipped (url : String) (pre post : List Node)
    (n m : Node) (h1 : n.tag = "img") (h2 : n.attr "src" = none)
    (h3 : m.tag = "a") (h4 : m.attr "href" = none) :
    imagesOf url (pre ++ n :: post) = imagesOf url (pre ++ post) ∧
    linksOf url (pre ++ m :: post) = linksOf url (pre ++ post) := by
  constructor
  · simp [imagesOf, h1, h2, truthyAttr, List.filter_append]
  · simp [linksOf, h3, h4, truthyAttr, List.filter_append]

/-- Witness for C7: a bare `<img>` and a bare `<a>` between an `<h1>`
and a `<p>` contribute nothing. -/
theorem C7_witness :
    imagesOf "http://s/" ([⟨"h1", [], "A"⟩] ++ (⟨"img", [], ""⟩ : Node) ::
        [⟨"p", [], "B"⟩]) =
      imagesOf "http://s/" ([⟨"h1", [], "A"⟩] ++ [⟨"p", [], "B"⟩]) ∧
    linksOf "http://s/" ([⟨"h1", [], "A"⟩] ++ (⟨"a", [], "Y"⟩ : Node) ::
        [⟨"p", [], "B"⟩]) =
      linksOf "http://s/" ([⟨"h1", [], "A"⟩] ++ [⟨"p", [], "B"⟩]) :=
  C7_missing_attribute_skipped "http://s/" [⟨"h1", [], "A"⟩] [⟨"p", [], "B"⟩]
    ⟨"img", [], ""⟩ ⟨"a", [], "Y"⟩ rfl rfl rfl rfl

/-- C8: with storage healthy, a batch over any mix of pages — some
with permanently failed fetches — returns normally (no error raised)
and its storage and aggregate contain exactly the concatenated
contributions of the pages, failed pages contributing nothing: a
failed URL never prevents the successfully fetched URLs' items from
being recorded. -/
theorem C8_partial_failure_batch (parse : String → List Node)
    (pages : List (String × Option String)) (st : ScrState) :
    (scrape_multiple_urls (fun _ => false) parse pages st).2 = false ∧
    (scrape_multiple_urls (fun _ => false) parse pages st).1.storage =
      st.storage ++ (pages.map (pageRows parse)).flatten ∧
    (scrape_multiple_urls (fun _ => false) parse pages st).1.results =
      ⟨st.results.Headings ++ (pages.map (pageHeadings parse)).flatten,
       st.results.Text ++ (pages.map (pageParagraphs parse)).flatten,
       st.results.Images ++ (pages.map (pageImages parse)).flatten,
       st.results.Links ++ (pages.map (pageLinks parse)).flatten⟩ :=
  scrape_noFail parse pages st

/-- C9: under any cooperative interleaving of the page tasks' append
operations that runs every pending operation to completion, each
category's aggregate sequence grows by exactly the sum of the pages'
per-category contributions — no append is lost or duplicated. -/
theorem C9_no_lost_updates (parse : String → List Node)
    (pages : List (String × Option String)) (sched : List Nat) (r0 : Results)
    (k : String)
    (hk : k ∈ (["Headings", "Text", "Images", "Links"] : List String))
    (hdone : ∀ q ∈ (runSched sched (pages.map (pageOps parse)) r0).1, q = []) :
    keyLen (runSched sched (pages.map (pageOps parse)) r0).2 k =
      keyLen r0 k + (pages.map (fun p => countKey k (pageOps parse p))).sum := by
  have hinv := runSched_count k hk sched (pages.map (pageOps parse)) r0
  have hzero : qCount k (runSched sched (pages.map (pageOps parse)) r0).1 = 0 := by
    unfold qCount
    apply List.sum_eq_zero
    intro x hx
    simp only [List.mem_map] at hx
    obtain ⟨q, hq, rfl⟩ := hx
    rw [hdone q hq]
    rfl
  have hq0 : qCount k (pages.map (pageOps parse)) =
      (pages.map (fun p => countKey k (pageOps parse p))).sum := by
    simp only [qCount, List.map_map]
    rfl
  omega

/-- Witness for C9: two pages, the second's fetch failed; the
schedule drains the first page's four appends; the headings sequence
length equals the summed per-page heading counts. -/
theorem C9_witness :
    ("Headings" : String) ∈ (["Headings", "Text", "Images", "Links"] : List String) ∧
    (∀ q ∈ (runSched [0, 0, 0, 0, 1]
        ([("http://u1/", some "x"), ("http://u2/", none)].map
          (pageOps (fun _ => c6nodes))) Results.empty).1, q = []) ∧
    keyLen (runSched [0, 0, 0, 0, 1]
        ([("http://u1/", some "x"), ("http://u2/", none)].map
          (pageOps (fun _ => c6nodes))) Results.empty).2 "Headings" =
      keyLen Results.empty "Headings" +
        ([("http://u1/", some "x"), ("http://u2/", none)].map
          (fun p => countKey "Headings" (pageOps (fun _ => c6nodes) p))).sum :=
  ⟨by decide, by decide,
    C9_no_lost_updates (fun _ => c6nodes)
      [("http://u1/", some "x"), ("http://u2/", none)] [0, 0, 0, 0, 1]
      Results.empty "Headings" (by decide) (by decide)⟩

/-- C10: an HTTP-200 response with an empty body is returned by
`fetch_url` after a single attempt as `some ""`, and `extract_data`
then treats it exactly as it treats a failed fetch (the success test
is the body's truthiness): no extraction, no storage write, no
aggregate append, no error — the same outcome as for an absent
body. -/
theorem C10_empty_body_as_failure (fails : Nat → Bool)
    (parse : String → List Node) (url : String) (st : ScrState) :
    (fetch_url (fun _ => .ok "")).result = some "" ∧
    (fetch_url (fun _ => .ok "")).attempts = 1 ∧
    extract_data fails parse url (some "") st = (st, false) ∧
    extract_data fails parse url (some "") st =
      extract_data fails parse url none st := by
  have he : truthyStr (some "") = false := rfl
  have hn : truthyStr none = false := rfl
  refine ⟨rfl, rfl, ?_, ?_⟩ <;> simp [extract_data, he, hn]

/-- Witness for C3: the scraper starts empty, the second insert (the
paragraph) fails; the appended aggregate entries and the committed
rows coincide. -/
theorem C3_witness :
    ∃ δH δT δI δL : List String,
      (extract_data (fun n => n == 1) (fun _ => c6nodes) "http://s/" (some "x")
          ⟨0, [], Results.empty⟩).1.results =
        ⟨Results.empty.Headings ++ δH, Results.empty.Text ++ δT,
         Results.empty.Images ++ δI, Results.empty.Links ++ δL⟩ ∧
      (extract_data (fun n => n == 1) (fun _ => c6nodes) "http://s/" (some "x")
          ⟨0, [], Results.empty⟩).1.storage =
        ([] : List Row) ++ δH.map (fun x => ⟨"http://s/", "Heading", x⟩) ++
          δT.map (fun x => ⟨"http://s/", "Text", x⟩) ++
          δI.map (fun x => ⟨"http://s/", "Image", x⟩) ++
          δL.map (fun x => ⟨"http://s/", "Link", x⟩) ∧
      ((extract_data (fun n => n == 1) (fun _ => c6nodes) "http://s/" (some "x")
          ⟨0, [], Results.empty⟩).2 = false →
        truthyStr (some "x") = true →
          δH = headingsOf c6nodes ∧ δT = paragraphsOf c6nodes ∧
          δI = imagesOf "http://s/" c6nodes ∧ δL = linksOf "http://s/" c6nodes) :=
  C3_storage_aggregate_sync (fun n => n == 1) (fun _ => c6nodes) "http://s/"
    (some "x") ⟨0, [], Results.empty⟩
